import Mathlib

/-!
Shallow embedding of `src/Array_Instrumentation/arrayinstrumentation.cc`
(bounds-safety analyzer and instrumentor). Machine integers are modelled
as `Int` with explicit saturation at the 32-bit signed bounds, matching
`clamp_i32` in the source. `std::map` is modelled as an association list
with replace-or-append insertion; lookups and sizes agree with the C++
map content semantics.
-/

/-- Embedding of `INT_MIN` of the 32-bit signed domain (limits.h). -/
def INT_MIN : Int := -2147483648

/-- Embedding of `INT_MAX` of the 32-bit signed domain (limits.h). -/
def INT_MAX : Int := 2147483647

/-- The interval type `range` of the source, lines 19-41: a pair of 32-bit
values `safelane` (low) and `offlane` (high). -/
structure range where
  safelane : Int
  offlane : Int
deriving DecidableEq, Repr

/-- Embedding of `r_top` = `range(INT_MIN, INT_MAX)`, line 43. -/
def r_top : range := ⟨INT_MIN, INT_MAX⟩

/-- Embedding of `r_bot` = `range(INT_MAX, INT_MIN)`, line 44. -/
def r_bot : range := ⟨INT_MAX, INT_MIN⟩

/-- Embedding of `clamp_i32`, lines 51-55 of the source. -/
def clamp_i32 (val : Int) : Int :=
  if val > INT_MAX then INT_MAX
  else if val < INT_MIN then INT_MIN
  else val

/-- Embedding of `range::add`, lines 62-67. -/
def range.add (r1 r2 : range) : range :=
  if r1 = r_bot ∨ r2 = r_bot then r_bot
  else ⟨clamp_i32 (r1.safelane + r2.safelane), clamp_i32 (r1.offlane + r2.offlane)⟩

/-- Embedding of `range::sub`, lines 69-74. -/
def range.sub (r1 r2 : range) : range :=
  if r1 = r_bot ∨ r2 = r_bot then r_bot
  else ⟨clamp_i32 (r1.safelane - r2.offlane), clamp_i32 (r1.offlane - r2.safelane)⟩

/-- Embedding of `range::mul`, lines 76-86: min/max of the four clamped corner products. -/
def range.mul (r1 r2 : range) : range :=
  if r1 = r_bot ∨ r2 = r_bot then r_bot
  else
    let t1 := clamp_i32 (r1.safelane * r2.safelane)
    let t2 := clamp_i32 (r1.safelane * r2.offlane)
    let t3 := clamp_i32 (r1.offlane * r2.safelane)
    let t4 := clamp_i32 (r1.offlane * r2.offlane)
    ⟨min (min t1 t2) (min t3 t4), max (max t1 t2) (max t3 t4)⟩

/-- Embedding of `range::join`, lines 88-94. -/
def range.join (r1 r2 : range) : range :=
  if r1 = r_bot then r2
  else if r2 = r_bot then r1
  else ⟨min r1.safelane r2.safelane, max r1.offlane r2.offlane⟩

/-- Embedding of `range::intersect`, lines 96-102. -/
def range.intersect (r1 r2 : range) : range :=
  if r1 = r_bot ∨ r2 = r_bot then r_bot
  else
    let new_safe := max r1.safelane r2.safelane
    let new_off := min r1.offlane r2.offlane
    if new_safe > new_off then r_bot else ⟨new_safe, new_off⟩

/-- Concretization: the integer `x` is a possible value of interval `r`. -/
def range.mem (x : Int) (r : range) : Prop :=
  r.safelane ≤ x ∧ x ≤ r.offlane

instance (x : Int) (r : range) : Decidable (range.mem x r) := by
  unfold range.mem; infer_instance

/-- Information (inclusion) order on intervals: `a` describes a subset of
the values `b` describes. Bottom is the least element. -/
def range.le (a b : range) : Prop :=
  a = r_bot ∨ (b ≠ r_bot ∧ b.safelane ≤ a.safelane ∧ a.offlane ≤ b.offlane)

instance (a b : range) : Decidable (range.le a b) := by
  unfold range.le; infer_instance

/-- Well-formedness invariant of §3 of the spec: every interval is Bottom
or has `lo ≤ hi` with both bounds inside the machine-integer domain. -/
def range.wf (r : range) : Prop :=
  r = r_bot ∨ (INT_MIN ≤ r.safelane ∧ r.safelane ≤ r.offlane ∧ r.offlane ≤ INT_MAX)

instance (r : range) : Decidable (range.wf r) := by
  unfold range.wf; infer_instance

/-! ## Finite maps (modelling `std::map` keyed by value identity / index) -/

/-- Association-list model of `std::map<K, V>` with integer keys (pointer
identities and array indices are both modelled as `Int`). -/
abbrev imap (β : Type) : Type := List (Int × β)

/-- Lookup, mirroring `map::find` / `operator[]` reads. -/
def mapFind {β : Type} : imap β → Int → Option β
  | [], _ => none
  | (k, v) :: t, i => if k = i then some v else mapFind t i

/-- Insertion/assignment `m[k] = v`: replaces the binding if present,
appends otherwise (content-equivalent to `std::map` assignment). -/
def mapInsert {β : Type} : imap β → Int → β → imap β
  | [], i, v => [(i, v)]
  | (k, w) :: t, i, v => if k = i then (i, v) :: t else (k, w) :: mapInsert t i v

/-- Embedding of `map::count` as a Bool. -/
def mapContains {β : Type} (m : imap β) (i : Int) : Bool :=
  (mapFind m i).isSome

/-! ## Array abstract store and block abstract state -/

/-- Embedding of `arr_state`, lines 126-136: finite slot map plus the `default_r`
summary interval. A fresh store has no slots and default `[0,0]`. -/
structure arr_state where
  elem_map : imap range
  default_r : range
deriving DecidableEq, Repr

/-- The fresh array store built by `arr_state()` (line 131). -/
def arr_state.init : arr_state := ⟨[], ⟨0, 0⟩⟩

/-- The unconstrained summary (default Top, no slots) that calls and
back-edge widening reset a store to. -/
def arr_state.unconstrained : arr_state := ⟨[], r_top⟩

/-- Embedding of `block_state`, lines 139-149. -/
structure block_state where
  val_ranges : imap range
  arr_states : imap arr_state
  reachable : Bool
deriving DecidableEq, Repr

/-- The default-constructed `block_state()` (unreachable, empty maps). -/
def block_state.init : block_state := ⟨[], [], false⟩

/-! ## Values

LLVM `Value*` operands are modelled structurally: each non-constant value
carries its identity (the `Int` key used by `val_ranges`), and composite
values (binary operators, loads) embed their operands, mirroring how the
source walks `getOperand`/`getPointerOperand`. A `gep` pointer carries its
base object identity, its number of indices, and its second index operand
(the only index the source ever reads). -/

/-- Binary opcodes dispatched by the source (`Add`, `Sub`, `Mul`, and the
`default:` fallback). -/
inductive BOp where
  | add
  | sub
  | mul
  | unk
deriving Repr

mutual
/-- An operand value. `other` covers any value the source handles only via
the generic `val_ranges.count(val)` lookup (phis, calls, selects, casts). -/
inductive V : Type where
  | cint (n : Int)
  | cexpr
  | binop (id : Int) (op : BOp) (a b : V)
  | loadv (id : Int) (p : Pt)
  | argv (id : Int)
  | other (id : Int)

/-- A pointer operand: either a plain value (so `get_base_ptr` returns it
unchanged) or a `GetElementPtrInst` with `nidx` indices whose second index
is `idx`. -/
inductive Pt : Type where
  | direct (id : Int)
  | gep (id : Int) (base : Int) (nidx : Nat) (idx : V)
end

/-- Embedding of `get_base_ptr`, lines 298-303: strip one level of `gep`. -/
def get_base_ptr : Pt → Int
  | .direct i => i
  | .gep _ base _ _ => base

/-- The `state.val_ranges.count(idx)` branch of `load_elem` (lines
267-273), shared by every value shape that reaches it. -/
def arr_state.load_tracked (a : arr_state) (id : Int) (state : block_state) : range :=
  match mapFind state.val_ranges id with
  | some idx_r =>
    if idx_r.safelane = idx_r.offlane ∧ idx_r ≠ r_bot then
      match mapFind a.elem_map idx_r.safelane with
      | some r => r
      | none => a.default_r
    else a.default_r
  | none => a.default_r

/-- The `state.val_ranges.count(idx)` / fallback branches of `store_elem`
(lines 239-250). -/
def arr_state.store_tracked (a : arr_state) (id : Int) (val : range)
    (state : block_state) : arr_state :=
  match mapFind state.val_ranges id with
  | some idx_r =>
    if idx_r.safelane = idx_r.offlane ∧ idx_r ≠ r_bot then
      ⟨mapInsert a.elem_map idx_r.safelane val, a.default_r⟩
    else ⟨[], range.join a.default_r val⟩
  | none => ⟨[], range.join a.default_r val⟩

/-- Embedding of `get_range`, lines 305-358: resolve a value to an interval against a
state. The `loadv` case mirrors the LoadInst branch: an indexed read from
a tracked array delegates to `load_elem`; otherwise fall through to the
tracked interval of the base, then of the load itself, then Top. The
delegated `load_elem` body is inlined in the `gep` case so the recursion
stays structural; the lemma `get_range_loadv_arr` below states the
delegation explicitly. -/
def get_range (val : V) (state : block_state) : range :=
  if state.reachable = false then r_bot
  else
    match val with
    | .cint n => ⟨n, n⟩
    | .cexpr => r_top
    | .binop id op a b =>
      match mapFind state.val_ranges id with
      | some r => r
      | none =>
        let r1 := get_range a state
        let r2 := get_range b state
        match op with
        | .add => range.add r1 r2
        | .sub => range.sub r1 r2
        | .mul => range.mul r1 r2
        | .unk => r_top
    | .loadv id p =>
      let base := get_base_ptr p
      let fb : range :=
        match mapFind state.val_ranges base with
        | some r => r
        | none =>
          match mapFind state.val_ranges id with
          | some r => r
          | none => r_top
      match p with
      | .direct _ => fb
      | .gep _ _ nidx idx =>
        match mapFind state.arr_states base with
        | some a =>
          if 2 ≤ nidx then
            match idx with
            | .cint n =>
              (match mapFind a.elem_map n with
                | some r => r
                | none => a.default_r)
            | .cexpr => a.default_r
            | .binop _ _ _ _ =>
              let idx_r := get_range idx state
              if idx_r.safelane = idx_r.offlane ∧ idx_r ≠ r_bot then
                match mapFind a.elem_map idx_r.safelane with
                | some r => r
                | none => a.default_r
              else a.default_r
            | .loadv iid _ => arr_state.load_tracked a iid state
            | .argv iid => arr_state.load_tracked a iid state
            | .other iid => arr_state.load_tracked a iid state
          else fb
        | none => fb
    | .argv id =>
      match mapFind state.val_ranges id with
      | some r => r
      | none => r_top
    | .other id =>
      match mapFind state.val_ranges id with
      | some r => r
      | none => r_top

/-- Embedding of `arr_state::load_elem`, lines 253-275: an exact-singleton index with an
existing slot reads that slot; every other case reads `default_r`. -/
def arr_state.load_elem (a : arr_state) (idx : V) (state : block_state) : range :=
  match idx with
  | .cint n =>
    match mapFind a.elem_map n with
    | some r => r
    | none => a.default_r
  | .cexpr => a.default_r
  | .binop _ _ _ _ =>
    let idx_r := get_range idx state
    if idx_r.safelane = idx_r.offlane ∧ idx_r ≠ r_bot then
      match mapFind a.elem_map idx_r.safelane with
      | some r => r
      | none => a.default_r
    else a.default_r
  | .loadv id _ => arr_state.load_tracked a id state
  | .argv id => arr_state.load_tracked a id state
  | .other id => arr_state.load_tracked a id state

/-- Embedding of `arr_state::store_elem`, lines 224-251: a constant or
resolved-singleton index updates one slot; every other index joins the
written interval into `default_r` and clears the slot map. -/
def arr_state.store_elem (a : arr_state) (idx : V) (val : range)
    (state : block_state) : arr_state :=
  match idx with
  | .cint n => ⟨mapInsert a.elem_map n val, a.default_r⟩
  | .cexpr => ⟨[], range.join a.default_r val⟩
  | .binop _ _ _ _ =>
    let idx_r := get_range idx state
    if idx_r.safelane = idx_r.offlane ∧ idx_r ≠ r_bot then
      ⟨mapInsert a.elem_map idx_r.safelane val, a.default_r⟩
    else ⟨[], range.join a.default_r val⟩
  | .loadv id _ => arr_state.store_tracked a id val state
  | .argv id => arr_state.store_tracked a id val state
  | .other id => arr_state.store_tracked a id val state

/-- Embedding of `arr_state::join_arr`, lines 277-296: join defaults; a slot present on
one side only is joined against the other side's default. -/
def arr_state.join_arr (s1 s2 : arr_state) : arr_state :=
  let m1 := s1.elem_map.foldl
    (fun m p =>
      match mapFind s2.elem_map p.1 with
      | some r2 => mapInsert m p.1 (range.join p.2 r2)
      | none => mapInsert m p.1 (range.join p.2 s2.default_r)) []
  let m2 := s2.elem_map.foldl
    (fun m p =>
      if mapContains s1.elem_map p.1 then m
      else mapInsert m p.1 (range.join s1.default_r p.2)) m1
  ⟨m2, range.join s1.default_r s2.default_r⟩

/-- Embedding of `block_state::join_state`, lines 151-195 (the `changed` result is
ignored by the caller at line 785, so only the state is modelled). -/
def block_state.join_state (self other : block_state) : block_state :=
  if other.reachable = false then self
  else if self.reachable = false then
    ⟨other.val_ranges, other.arr_states, true⟩
  else
    let vr := other.val_ranges.foldl
      (fun m p =>
        if p.2 = r_bot then m
        else
          let old_r := (mapFind m p.1).getD r_bot
          mapInsert m p.1 (range.join old_r p.2)) self.val_ranges
    let ar := other.arr_states.foldl
      (fun m p =>
        let na :=
          match mapFind m p.1 with
          | some cur => arr_state.join_arr cur p.2
          | none => p.2
        mapInsert m p.1 na) self.arr_states
    ⟨vr, ar, true⟩

/-- Embedding of `block_state::operator!=`, lines 198-222. Note: scalar maps are
compared entry by entry, but array stores are compared only by
`default_r` and by the **size** of `elem_map`, never by slot contents. -/
def block_state.bne (a other : block_state) : Bool :=
  if a.reachable ≠ other.reachable then true
  else if a.reachable = false ∧ other.reachable = false then false
  else if a.val_ranges.length ≠ other.val_ranges.length then true
  else if a.arr_states.length ≠ other.arr_states.length then true
  else if a.val_ranges.any (fun p =>
      match mapFind other.val_ranges p.1 with
      | none => true
      | some r2 => r2 ≠ p.2) then true
  else if a.arr_states.any (fun p =>
      match mapFind other.arr_states p.1 with
      | none => true
      | some a2 => a2.default_r ≠ p.2.default_r ∨
          a2.elem_map.length ≠ p.2.elem_map.length) then true
  else false

/-! ## Instructions and the per-instruction transfer function -/

/-- A call argument: the source only inspects `isPointerTy()` and, for
pointer arguments, `get_base_ptr`. -/
inductive CArg where
  | ptrArg (p : Pt)
  | valArg (v : V)

/-- Instructions dispatched by `transfer_inst`, lines 414-524. `alloca`
carries `some n` when the allocated type is an `n`-element array. A
`gepi` instruction is not handled by any `dyn_cast` branch of
`transfer_inst` and is a no-op there; it is revisited by the
instrumentation pass. -/
inductive inst where
  | phi (id : Int) (incs : List (Int × V))
  | alloca (id : Int) (arrayElems : Option Nat)
  | loadi (id : Int) (p : Pt)
  | storei (v : V) (p : Pt)
  | calli (id : Int) (known : Bool) (args : List CArg)
  | binopi (id : Int) (op : BOp) (a b : V)
  | selecti (id : Int) (tv fv : V)
  | casti (id : Int) (v : V)
  | gepi (id : Int) (base : Int) (nidx : Nat) (idx : V)

/-- Embedding of `get_pred_range`, lines 360-412: like `get_range` but evaluated
against a predecessor block's out-state. Note the order difference with
`get_range`: the generic `val_ranges.count(val)` lookup comes *before*
the LoadInst branch. A missing out-state entry behaves like the
default-constructed (unreachable) state, as `operator[]` would insert. -/
def get_pred_range (val : V) (pred_bb : Int) (out_states : imap block_state) : range :=
  let st := (mapFind out_states pred_bb).getD block_state.init
  if st.reachable = false then r_bot
  else
    match val with
    | .cint n => ⟨n, n⟩
    | .cexpr => r_top
    | .binop id op a b =>
      match mapFind st.val_ranges id with
      | some r => r
      | none =>
        let r1 := get_pred_range a pred_bb out_states
        let r2 := get_pred_range b pred_bb out_states
        match op with
        | .add => range.add r1 r2
        | .sub => range.sub r1 r2
        | .mul => range.mul r1 r2
        | .unk => r_top
    | .loadv id p =>
      match mapFind st.val_ranges id with
      | some r => r
      | none =>
        let base := get_base_ptr p
        let fb : range :=
          match mapFind st.val_ranges base with
          | some r => r
          | none => r_top
        match p with
        | .direct _ => fb
        | .gep _ _ nidx idx =>
          match mapFind st.arr_states base with
          | some a => if 2 ≤ nidx then arr_state.load_elem a idx st else fb
          | none => fb
    | .argv id =>
      match mapFind st.val_ranges id with
      | some r => r
      | none => r_top
    | .other id =>
      match mapFind st.val_ranges id with
      | some r => r
      | none => r_top

/-- The per-argument clobber step of the call case of `transfer_inst`,
lines 481-492: a pointer argument whose base has a tracked array store
resets that store to the unconstrained summary; otherwise the base's
scalar is bound to Top. -/
def clobber_arg (st : block_state) (a : CArg) : block_state :=
  match a with
  | .valArg _ => st
  | .ptrArg p =>
    let base := get_base_ptr p
    if mapContains st.arr_states base then
      { st with arr_states := mapInsert st.arr_states base arr_state.unconstrained }
    else
      { st with val_ranges := mapInsert st.val_ranges base r_top }

/-- Embedding of `transfer_inst`, lines 414-524. -/
def transfer_inst (i : inst) (s : block_state)
    (out_states : imap block_state) : block_state :=
  match i with
  | .phi id incs =>
    let merged := incs.foldl
      (fun m pr =>
        if ((mapFind out_states pr.1).getD block_state.init).reachable then
          range.join m (get_pred_range pr.2 pr.1 out_states)
        else m) r_bot
    { s with val_ranges := mapInsert s.val_ranges id merged }
  | .alloca id arrayElems =>
    match arrayElems with
    | some _ => { s with arr_states := mapInsert s.arr_states id arr_state.init }
    | none => { s with val_ranges := mapInsert s.val_ranges id r_top }
  | .loadi id p =>
    let base := get_base_ptr p
    match p with
    | .gep _ _ nidx idx =>
      if mapContains s.arr_states base then
        if 2 ≤ nidx then
          match mapFind s.arr_states base with
          | some a =>
            { s with val_ranges :=
                mapInsert s.val_ranges id (arr_state.load_elem a idx s) }
          | none => s
        else s
      else
        { s with val_ranges := mapInsert s.val_ranges id (get_range (V.other base) s) }
    | .direct _ =>
      { s with val_ranges := mapInsert s.val_ranges id (get_range (V.other base) s) }
  | .storei v p =>
    let base := get_base_ptr p
    let val_r := get_range v s
    match p with
    | .gep _ _ nidx idx =>
      if mapContains s.arr_states base ∧ 2 ≤ nidx then
        match mapFind s.arr_states base with
        | some a =>
          { s with arr_states :=
              mapInsert s.arr_states base (arr_state.store_elem a idx val_r s) }
        | none => s
      else { s with val_ranges := mapInsert s.val_ranges base val_r }
    | .direct _ =>
      { s with val_ranges := mapInsert s.val_ranges base val_r }
  | .calli id known args =>
    let s1 := if known then args.foldl clobber_arg s else s
    { s1 with val_ranges := mapInsert s1.val_ranges id r_top }
  | .binopi id op a b =>
    let r1 := get_range a s
    let r2 := get_range b s
    let r :=
      match op with
      | .add => range.add r1 r2
      | .sub => range.sub r1 r2
      | .mul => range.mul r1 r2
      | .unk => r_top
    { s with val_ranges := mapInsert s.val_ranges id r }
  | .selecti id tv fv =>
    { s with val_ranges :=
        mapInsert s.val_ranges id (range.join (get_range tv s) (get_range fv s)) }
  | .casti id v =>
    { s with val_ranges := mapInsert s.val_ranges id (get_range v s) }
  | .gepi _ _ _ _ => s

/-! ## Branch / switch refinement -/

/-- The signed comparison predicates the source recognizes; `oth` covers
every other `ICmpInst` predicate (no filter is computed for them). -/
inductive CPred where
  | sgt
  | sge
  | slt
  | sle
  | eqc
  | nec
  | oth
deriving DecidableEq, Repr

/-- Embedding of `CmpInst::getSwappedPredicate` restricted to the handled predicates. -/
def swapped_pred : CPred → CPred
  | .sgt => .slt
  | .sge => .sle
  | .slt => .sgt
  | .sle => .sge
  | p => p

/-- Embedding of `CmpInst::getInversePredicate` restricted to the handled predicates. -/
def inverse_pred : CPred → CPred
  | .sgt => .sle
  | .sge => .slt
  | .slt => .sge
  | .sle => .sgt
  | .eqc => .nec
  | .nec => .eqc
  | .oth => .oth

/-- A comparison operand as `refine_br`/`refine_sw` classify it: a load
(dyn_cast LoadInst), an argument, a constant integer, or anything else
(consulted only through `val_ranges.count`). -/
inductive cmpop where
  | loadOp (p : Pt)
  | argOp (id : Int)
  | constOp (n : Int)
  | otherOp (id : Int)

/-- An `ICmpInst` branch condition. -/
structure icmp where
  pred : CPred
  lhs : cmpop
  rhs : cmpop

/-- The filter-interval switch of `refine_br`, lines 585-617 (`filter_r`
is initialized to Top, and the `ICMP_NE` case inspects the variable's
current interval). -/
def br_filter (p : CPred) (const_val : Int) (var_r : range) : range :=
  match p with
  | .sgt => if const_val = INT_MAX then r_bot else ⟨const_val + 1, INT_MAX⟩
  | .sge => ⟨const_val, INT_MAX⟩
  | .slt => if const_val = INT_MIN then r_bot else ⟨INT_MIN, const_val - 1⟩
  | .sle => ⟨INT_MIN, const_val⟩
  | .eqc => ⟨const_val, const_val⟩
  | .nec =>
    if var_r.safelane = const_val ∧ var_r.offlane = const_val then r_bot else r_top
  | .oth => r_top

/-- The refinement core of `refine_br`, lines 577-624: invert the
predicate on the not-taken edge, compute the filter, meet it with the
variable's interval. -/
def refine_core (var_r : range) (p : CPred) (const_val : Int)
    (is_true_path : Bool) : range :=
  let p1 := if is_true_path then p else inverse_pred p
  range.intersect var_r (br_filter p1 const_val var_r)

/-- The `variable compared-to constant` pattern match of `refine_br`,
lines 533-573: returns the variable's `val_ranges` key, the constant, and
the (possibly swapped) predicate. The dyn_cast chain stops at the first
branch whose outer test matches, even when its inner test fails. -/
def br_pattern (c : icmp) (ps : block_state) : Option (Int × Int × CPred) :=
  match c.lhs, c.rhs with
  | .loadOp p, .constOp n => some (get_base_ptr p, n, c.pred)
  | .loadOp _, _ => none
  | _, .loadOp p =>
    match c.lhs with
    | .constOp n => some (get_base_ptr p, n, swapped_pred c.pred)
    | _ => none
  | .argOp a, .constOp n => some (a, n, c.pred)
  | .argOp _, _ => none
  | _, .argOp a =>
    match c.lhs with
    | .constOp n => some (a, n, swapped_pred c.pred)
    | _ => none
  | .otherOp v, .constOp n =>
    if mapContains ps.val_ranges v then some (v, n, c.pred) else none
  | .constOp n, .otherOp v =>
    if mapContains ps.val_ranges v then some (v, n, swapped_pred c.pred) else none
  | _, _ => none

/-- Embedding of `refine_br`, lines 526-625: `cond` is `none` when the branch is
unconditional or its condition is not an `ICmpInst`. -/
def refine_br (cond : Option icmp) (tdest _fdest succ : Int)
    (pred_state : block_state) : block_state :=
  match cond with
  | none => pred_state
  | some c =>
    match br_pattern c pred_state with
    | none => pred_state
    | some (var, const_val, p0) =>
      match mapFind pred_state.val_ranges var with
      | none => pred_state
      | some var_r =>
        let refined := refine_core var_r p0 const_val (succ = tdest)
        let ps2 := { pred_state with
          val_ranges := mapInsert pred_state.val_ranges var refined }
        if refined = r_bot then { ps2 with reachable := false } else ps2

/-- Embedding of `refine_sw`, lines 627-659: on a non-default case edge, meet the
scrutinee's interval with the join of the singleton intervals of every
case value targeting that edge. -/
def refine_sw (cond : cmpop) (ddest : Int) (cases : List (Int × Int))
    (succ : Int) (pred_state : block_state) : block_state :=
  let var? : Option Int :=
    match cond with
    | .loadOp p => some (get_base_ptr p)
    | .argOp a => some a
    | .otherOp v => if mapContains pred_state.val_ranges v then some v else none
    | .constOp _ => none
  match var? with
  | none => pred_state
  | some var =>
    match mapFind pred_state.val_ranges var with
    | none => pred_state
    | some old_r =>
      if succ = ddest then pred_state
      else
        let case_r := cases.foldl
          (fun r cv => if cv.2 = succ then range.join r ⟨cv.1, cv.1⟩ else r) r_bot
        let refined := range.intersect old_r case_r
        let ps2 := { pred_state with
          val_ranges := mapInsert pred_state.val_ranges var refined }
        if refined = r_bot then { ps2 with reachable := false } else ps2

/-! ## Widening and the guard decision -/

/-- Embedding of `widen_loop`, lines 661-693, as a pure function of the incoming fact
(`pred_state`), the target block's previous in-state, and whether the
edge is a back-edge. A bound that strictly expanded is snapped to the
unbounded limit; the other side takes the incoming (possibly narrowed)
bound. A differing array store is collapsed to the unconstrained
summary. -/
def widen_loop (pred_state in_state : block_state) (is_back_edge : Bool) :
    block_state :=
  if is_back_edge = false then pred_state
  else
    let ps := in_state.val_ranges.foldl
      (fun st p =>
        match mapFind st.val_ranges p.1 with
        | none => st
        | some new_r =>
          let old_r := p.2
          if old_r ≠ new_r ∧ old_r ≠ r_bot then
            let lower_expanding := new_r.safelane < old_r.safelane
            let upper_expanding := new_r.offlane > old_r.offlane
            if lower_expanding ∨ upper_expanding then
              let wr : range :=
                ⟨if lower_expanding then INT_MIN else new_r.safelane,
                 if upper_expanding then INT_MAX else new_r.offlane⟩
              { st with val_ranges := mapInsert st.val_ranges p.1 wr }
            else st
          else st) pred_state
    in_state.arr_states.foldl
      (fun st p =>
        match mapFind st.arr_states p.1 with
        | none => st
        | some pa =>
          if pa.default_r ≠ p.2.default_r ∨ pa.elem_map ≠ p.2.elem_map then
            { st with arr_states := mapInsert st.arr_states p.1 arr_state.unconstrained }
          else st) ps

/-- The truncating `(int)size` cast of `needs_check`: a `uint64_t` array
size reduced to a signed 32-bit value (two's complement). -/
def to_i32 (n : Nat) : Int :=
  let m : Int := (n : Int) % 4294967296
  if m < 2147483648 then m else m - 4294967296

/-- Embedding of `needs_check`, lines 695-704. -/
def needs_check (r : range) (size : Nat) : Bool :=
  if r = r_bot then false
  else if size = 0 then true
  else if r ≠ r_top ∧ 0 ≤ r.safelane ∧ r.offlane < to_i32 size then false
  else true

/-! ## CFG, worklist fixpoint driver, and the pass entry point -/

/-- Block terminators: unconditional branch, two-way conditional branch
(with its condition when it is an `ICmpInst`), switch (cases are
`(value, destination)` pairs), or return. -/
inductive term where
  | br (dest : Int)
  | condbr (cond : Option icmp) (tdest fdest : Int)
  | switch (cond : cmpop) (ddest : Int) (cases : List (Int × Int))
  | ret

/-- Successor list of a terminator (`successors(BB)`; for a conditional
branch successor 0 is the taken destination, for a switch successor 0 is
the default destination). -/
def term.succs : term → List Int
  | .br d => [d]
  | .condbr _ t f => [t, f]
  | .switch _ d cs => d :: cs.map (·.2)
  | .ret => []

/-- A basic block: identity, instructions in program order, terminator. -/
structure bblock where
  id : Int
  insts : List inst
  termi : term

/-- A function: name, blocks in layout order (the first block is the
entry block), formal argument identities, and its back-edge set.
`FindFunctionBackedges` is host-compiler functionality (spec §6) and the
spec (§3) treats the back-edge set as a read-only input computed before
the fixpoint, so it is supplied here as data of the function. -/
structure func where
  name : String
  blocks : List bblock
  params : List Int
  back_edges : List (Int × Int)

/-- Entry block identity (`F.getEntryBlock()`). -/
def func.entry (f : func) : Int :=
  match f.blocks with
  | [] => 0
  | b :: _ => b.id

/-- The block with the given identity. -/
def func.blockOf (f : func) (id : Int) : Option bblock :=
  f.blocks.find? (fun b => b.id = id)

/-- Predecessors of `bb`: blocks whose terminator lists `bb` as a
successor, in layout order. -/
def func.preds (f : func) (bb : Int) : List Int :=
  (f.blocks.filter (fun b => b.termi.succs.contains bb)).map (·.id)

/-- One solver configuration: FIFO worklist `wk`, its membership set
`in_wk`, and the per-block in/out states. -/
structure config where
  wk : List Int
  in_wk : List Int
  ins : imap block_state
  outs : imap block_state
deriving DecidableEq, Repr

/-- The initial configuration, lines 753-756: every block is queued. -/
def init_config (f : func) : config :=
  ⟨f.blocks.map (·.id), f.blocks.map (·.id), [], []⟩

/-- Push every successor that is not already queued, lines 798-803 /
815-820. -/
def push_succs (succs : List Int) (wk in_wk : List Int) : List Int × List Int :=
  succs.foldl
    (fun pr s => if pr.2.contains s then pr else (pr.1 ++ [s], pr.2 ++ [s]))
    (wk, in_wk)

/-- The in-state recomputation for one popped block, lines 763-788: the
entry block restarts from `reachable` with every parameter at Top; any
other block joins every reachable predecessor's out-state, refined across
the edge and widened on back-edges. -/
def compute_in (f : func) (bb : Int) (ins outs : imap block_state) : block_state :=
  if bb = f.entry then
    { val_ranges := f.params.foldl (fun m a => mapInsert m a r_top) [],
      arr_states := [], reachable := true }
  else
    (f.preds bb).foldl
      (fun acc p =>
        let pout := (mapFind outs p).getD block_state.init
        if pout.reachable = false then acc
        else
          let pout :=
            match f.blockOf p with
            | none => pout
            | some pb =>
              match pb.termi with
              | .condbr cond t fdest => refine_br cond t fdest bb pout
              | .switch cond d cs => refine_sw cond d cs bb pout
              | _ => pout
          let pout := widen_loop pout ((mapFind ins bb).getD block_state.init)
            (f.back_edges.contains (p, bb))
          if pout.reachable then block_state.join_state acc pout else acc)
      block_state.init

/-- One iteration of the worklist loop of `run_pass`, lines 758-822: pop
a block, recompute its in-state, run the transfer function, store the
out-state, and push successors when it changed. An empty worklist is left
unchanged. -/
def solve_step (f : func) (c : config) : config :=
  match c.wk with
  | [] => c
  | bb :: rest =>
    let in_wk := c.in_wk.filter (fun x => x ≠ bb)
    let new_in := compute_in f bb c.ins c.outs
    let ins' := mapInsert c.ins bb new_in
    let old_out := (mapFind c.outs bb).getD block_state.init
    if new_in.reachable = false then
      let outs' := mapInsert c.outs bb new_in
      if block_state.bne old_out new_in then
        let succs := match f.blockOf bb with
          | some b => b.termi.succs
          | none => []
        let pr := push_succs succs rest in_wk
        ⟨pr.1, pr.2, ins', outs'⟩
      else ⟨rest, in_wk, ins', outs'⟩
    else
      let cur :=
        match f.blockOf bb with
        | some b => b.insts.foldl (fun s i => transfer_inst i s c.outs) new_in
        | none => new_in
      let outs' := mapInsert c.outs bb cur
      if block_state.bne old_out cur then
        let succs := match f.blockOf bb with
          | some b => b.termi.succs
          | none => []
        let pr := push_succs succs rest in_wk
        ⟨pr.1, pr.2, ins', outs'⟩
      else ⟨rest, in_wk, ins', outs'⟩

/-- Fueled worklist loop: the C++ loop runs until the queue is empty,
which the non-termination analysis below shows is not always reached, so
the embedding bounds the number of pops. -/
def solve_n (f : func) : Nat → config → config
  | 0, c => c
  | n + 1, c => if c.wk = [] then c else solve_n f n (solve_step f c)

/-- Per-access diagnostic outcome (spec §6: every access yields exactly
one of inserted / skipped-safe / skipped-unreachable). -/
inductive diag where
  | inserted (gid : Int)
  | skippedSafe (gid : Int)
  | skippedUnreachable (gid : Int)
deriving DecidableEq, Repr

/-- Result of the pass: `preservedAll` models
`PreservedAnalyses::all()` vs `::none()`; `guards` records the
`add_check` rewrites as `(gep identity, array size)` pairs. -/
structure PassResult where
  preservedAll : Bool
  modified : Bool
  diags : List diag
  guards : List (Int × Nat)
deriving DecidableEq, Repr

/-- Embedding of `dyn_cast<AllocaInst>` on a base id plus `getAllocatedType()`: find
the alloca instruction with this identity and return its array element
count (`none` result: not an alloca; `some none`: scalar alloca). -/
def find_alloca (f : func) (id : Int) : Option (Option Nat) :=
  (f.blocks.foldl (fun acc b => acc ++ b.insts) []).foldl
    (fun acc i =>
      match acc with
      | some r => some r
      | none =>
        match i with
        | .alloca aid ae => if aid = id then some ae else none
        | _ => none) none

/-- The instrumentation decision for one `gepi` at position `pos` of
block `b`, lines 834-904: replay the block's instructions before the
access on top of the solved in-state, resolve the index interval, and
decide with `needs_check`. Returns the diagnostic and the guard, if one
is inserted. `none` means the access was not considered (unreachable
block handled by the caller; non-array or non-alloca base). -/
def decide_gep (f : func) (ins outs : imap block_state) (b : bblock)
    (pos : Nat) (gid base : Int) (nidx : Nat) (idx : V) :
    Option (diag × Option (Int × Nat)) :=
  match find_alloca f base with
  | some (some arr_size) =>
    let bin := (mapFind ins b.id).getD block_state.init
    let state_at := (b.insts.take pos).foldl (fun s i => transfer_inst i s outs) bin
    let idx_r := if 2 ≤ nidx then get_range idx state_at else r_top
    let needs := needs_check idx_r arr_size
    if idx_r = r_bot then some (.skippedUnreachable gid, none)
    else if needs then some (.inserted gid, some (gid, arr_size))
    else some (.skippedSafe gid, none)
  | _ => none

/-- The instrumentation sweep of `run_pass`, lines 823-904: visit every
`gepi` in program order with the solved states. -/
def instrument (f : func) (ins outs : imap block_state) : List diag × List (Int × Nat) :=
  f.blocks.foldl
    (fun acc b =>
      (b.insts.enum.foldl
        (fun acc2 pi =>
          match pi.2 with
          | .gepi gid base nidx idx =>
            if ((mapFind ins b.id).getD block_state.init).reachable = false then
              (acc2.1 ++ [diag.skippedUnreachable gid], acc2.2)
            else
              match decide_gep f ins outs b pi.1 gid base nidx idx with
              | some (d, g) => (acc2.1 ++ [d], acc2.2 ++ g.toList)
              | none => acc2
          | _ => acc2) acc))
    ([], [])

/-- Fuel used by the embedded driver for the analysis of `test`. -/
def solver_fuel : Nat := 100000

/-- The analysis-and-instrumentation path of `run_pass` (everything after
the name gate), lines 741-906. -/
def run_test (f : func) : PassResult :=
  let cfg := solve_n f solver_fuel (init_config f)
  let di := instrument f cfg.ins cfg.outs
  { preservedAll := di.2.isEmpty, modified := !di.2.isEmpty,
    diags := di.1, guards := di.2 }

/-- Embedding of `run_pass`, lines 738-907: functions not named `test` are returned
immediately with all analyses preserved. -/
def run_pass (f : func) : PassResult :=
  if f.name = "test" then run_test f
  else { preservedAll := true, modified := false, diags := [], guards := [] }

/-! ## Worklist non-termination (C9)

A four-block CFG on which the fixpoint loop never drains its queue.
Value identities: `1` = the scalar alloca `x`; `3` = the load of `x` in
the loop body; `4` = the binop `20 - x`. Block identities: `10` = entry
(`x = 0`), `11` = loop head (branch on `x < 100`), `12` = loop body
(`x = 20 - x`, back-edge to `11`), `13` = exit. The back-edge set is
`{(12, 11)}`, as `FindFunctionBackedges` computes for this CFG. The
incoming fact for `x` at the loop head alternates between expanding above
(snapped to `[·, INT_MAX]` while a narrowed lower bound is accepted) and
expanding below (snapped to `[INT_MIN, ·]` while a narrowed upper bound
is accepted), so the head and body out-states change on every visit,
forever. -/
def osc_fn : func :=
  { name := "test",
    blocks :=
      [ ⟨10, [.alloca 1 none, .storei (V.cint 0) (Pt.direct 1)], .br 11⟩,
        ⟨11, [], .condbr (some ⟨.slt, .loadOp (Pt.direct 1), .constOp 100⟩) 12 13⟩,
        ⟨12, [.storei (V.binop 4 .sub (V.cint 20) (V.loadv 3 (Pt.direct 1)))
                (Pt.direct 1)], .br 11⟩,
        ⟨13, [], .ret⟩ ],
    params := [],
    back_edges := [(12, 11)] }

/-- The solver configuration after `n` pops of the worklist on `osc_fn`. -/
def osc_iter (n : Nat) : config :=
  (solve_step osc_fn)^[n] (init_config osc_fn)

def osc_c0 : config :=
  { wk := [10, 11, 12, 13], in_wk := [10, 11, 12, 13], ins := [], outs := [] }

def osc_c1 : config :=
  { wk := [11, 12, 13], in_wk := [11, 12, 13], ins := [(10, { val_ranges := [], arr_states := [], reachable := true })], outs := [(10, { val_ranges := [(1, { safelane := 0, offlane := 0 })], arr_states := [], reachable := true })] }

def osc_c2 : config :=
  { wk := [12, 13], in_wk := [12, 13], ins := [(10, { val_ranges := [], arr_states := [], reachable := true }), (11, { val_ranges := [(1, { safelane := 0, offlane := 0 })], arr_states := [], reachable := true })], outs := [(10, { val_ranges := [(1, { safelane := 0, offlane := 0 })], arr_states := [], reachable := true }), (11, { val_ranges := [(1, { safelane := 0, offlane := 0 })], arr_states := [], reachable := true })] }

def osc_c3 : config :=
  { wk := [13, 11], in_wk := [13, 11], ins := [(10, { val_ranges := [], arr_states := [], reachable := true }), (11, { val_ranges := [(1, { safelane := 0, offlane := 0 })], arr_states := [], reachable := true }), (12, { val_ranges := [(1, { safelane := 0, offlane := 0 })], arr_states := [], reachable := true })], outs := [(10, { val_ranges := [(1, { safelane := 0, offlane := 0 })], arr_states := [], reachable := true }), (11, { val_ranges := [(1, { safelane := 0, offlane := 0 })], arr_states := [], reachable := true }), (12, { val_ranges := [(1, { safelane := 20, offlane := 20 })], arr_states := [], reachable := true })] }

def osc_c4 : config :=
  { wk := [11], in_wk := [11], ins := [(10, { val_ranges := [], arr_states := [], reachable := true }), (11, { val_ranges := [(1, { safelane := 0, offlane := 0 })], arr_states := [], reachable := true }), (12, { val_ranges := [(1, { safelane := 0, offlane := 0 })], arr_states := [], reachable := true }), (13, { val_ranges := [], arr_states := [], reachable := false })], outs := [(10, { val_ranges := [(1, { safelane := 0, offlane := 0 })], arr_states := [], reachable := true }), (11, { val_ranges := [(1, { safelane := 0, offlane := 0 })], arr_states := [], reachable := true }), (12, { val_ranges := [(1, { safelane := 20, offlane := 20 })], arr_states := [], reachable := true }), (13, { val_ranges := [], arr_states := [], reachable := false })] }

def osc_c5 : config :=
  { wk := [12, 13], in_wk := [12, 13], ins := [(10, { val_ranges := [], arr_states := [], reachable := true }), (11, { val_ranges := [(1, { safelane := 0, offlane := 2147483647 })], arr_states := [], reachable := true }), (12, { val_ranges := [(1, { safelane := 0, offlane := 0 })], arr_states := [], reachable := true }), (13, { val_ranges := [], arr_states := [], reachable := false })], outs := [(10, { val_ranges := [(1, { safelane := 0, offlane := 0 })], arr_states := [], reachable := true }), (11, { val_ranges := [(1, { safelane := 0, offlane := 2147483647 })], arr_states := [], reachable := true }), (12, { val_ranges := [(1, { safelane := 20, offlane := 20 })], arr_states := [], reachable := true }), (13, { val_ranges := [], arr_states := [], reachable := false })] }

def osc_c6 : config :=
  { wk := [13, 11], in_wk := [13, 11], ins := [(10, { val_ranges := [], arr_states := [], reachable := true }), (11, { val_ranges := [(1, { safelane := 0, offlane := 2147483647 })], arr_states := [], reachable := true }), (12, { val_ranges := [(1, { safelane := 0, offlane := 99 })], arr_states := [], reachable := true }), (13, { val_ranges := [], arr_states := [], reachable := false })], outs := [(10, { val_ranges := [(1, { safelane := 0, offlane := 0 })], arr_states := [], reachable := true }), (11, { val_ranges := [(1, { safelane := 0, offlane := 2147483647 })], arr_states := [], reachable := true }), (12, { val_ranges := [(1, { safelane := -79, offlane := 20 })], arr_states := [], reachable := true }), (13, { val_ranges := [], arr_states := [], reachable := false })] }

def osc_c7 : config :=
  { wk := [11], in_wk := [11], ins := [(10, { val_ranges := [], arr_states := [], reachable := true }), (11, { val_ranges := [(1, { safelane := 0, offlane := 2147483647 })], arr_states := [], reachable := true }), (12, { val_ranges := [(1, { safelane := 0, offlane := 99 })], arr_states := [], reachable := true }), (13, { val_ranges := [(1, { safelane := 100, offlane := 2147483647 })], arr_states := [], reachable := true })], outs := [(10, { val_ranges := [(1, { safelane := 0, offlane := 0 })], arr_states := [], reachable := true }), (11, { val_ranges := [(1, { safelane := 0, offlane := 2147483647 })], arr_states := [], reachable := true }), (12, { val_ranges := [(1, { safelane := -79, offlane := 20 })], arr_states := [], reachable := true }), (13, { val_ranges := [(1, { safelane := 100, offlane := 2147483647 })], arr_states := [], reachable := true })] }

def osc_c8 : config :=
  { wk := [12, 13], in_wk := [12, 13], ins := [(10, { val_ranges := [], arr_states := [], reachable := true }), (11, { val_ranges := [(1, { safelane := -2147483648, offlane := 20 })], arr_states := [], reachable := true }), (12, { val_ranges := [(1, { safelane := 0, offlane := 99 })], arr_states := [], reachable := true }), (13, { val_ranges := [(1, { safelane := 100, offlane := 2147483647 })], arr_states := [], reachable := true })], outs := [(10, { val_ranges := [(1, { safelane := 0, offlane := 0 })], arr_states := [], reachable := true }), (11, { val_ranges := [(1, { safelane := -2147483648, offlane := 20 })], arr_states := [], reachable := true }), (12, { val_ranges := [(1, { safelane := -79, offlane := 20 })], arr_states := [], reachable := true }), (13, { val_ranges := [(1, { safelane := 100, offlane := 2147483647 })], arr_states := [], reachable := true })] }

def osc_c9 : config :=
  { wk := [13, 11], in_wk := [13, 11], ins := [(10, { val_ranges := [], arr_states := [], reachable := true }), (11, { val_ranges := [(1, { safelane := -2147483648, offlane := 20 })], arr_states := [], reachable := true }), (12, { val_ranges := [(1, { safelane := -2147483648, offlane := 20 })], arr_states := [], reachable := true }), (13, { val_ranges := [(1, { safelane := 100, offlane := 2147483647 })], arr_states := [], reachable := true })], outs := [(10, { val_ranges := [(1, { safelane := 0, offlane := 0 })], arr_states := [], reachable := true }), (11, { val_ranges := [(1, { safelane := -2147483648, offlane := 20 })], arr_states := [], reachable := true }), (12, { val_ranges := [(1, { safelane := 0, offlane := 2147483647 })], arr_states := [], reachable := true }), (13, { val_ranges := [(1, { safelane := 100, offlane := 2147483647 })], arr_states := [], reachable := true })] }

def osc_c10 : config :=
  { wk := [11], in_wk := [11], ins := [(10, { val_ranges := [], arr_states := [], reachable := true }), (11, { val_ranges := [(1, { safelane := -2147483648, offlane := 20 })], arr_states := [], reachable := true }), (12, { val_ranges := [(1, { safelane := -2147483648, offlane := 20 })], arr_states := [], reachable := true }), (13, { val_ranges := [], arr_states := [], reachable := false })], outs := [(10, { val_ranges := [(1, { safelane := 0, offlane := 0 })], arr_states := [], reachable := true }), (11, { val_ranges := [(1, { safelane := -2147483648, offlane := 20 })], arr_states := [], reachable := true }), (12, { val_ranges := [(1, { safelane := 0, offlane := 2147483647 })], arr_states := [], reachable := true }), (13, { val_ranges := [], arr_states := [], reachable := false })] }

def osc_c11 : config :=
  { wk := [12, 13], in_wk := [12, 13], ins := [(10, { val_ranges := [], arr_states := [], reachable := true }), (11, { val_ranges := [(1, { safelane := 0, offlane := 2147483647 })], arr_states := [], reachable := true }), (12, { val_ranges := [(1, { safelane := -2147483648, offlane := 20 })], arr_states := [], reachable := true }), (13, { val_ranges := [], arr_states := [], reachable := false })], outs := [(10, { val_ranges := [(1, { safelane := 0, offlane := 0 })], arr_states := [], reachable := true }), (11, { val_ranges := [(1, { safelane := 0, offlane := 2147483647 })], arr_states := [], reachable := true }), (12, { val_ranges := [(1, { safelane := 0, offlane := 2147483647 })], arr_states := [], reachable := true }), (13, { val_ranges := [], arr_states := [], reachable := false })] }


/-! ## Soundness of the interval arithmetic (spec §8.1) -/

theorem mapFind_insert_self {β : Type} (m : imap β) (k : Int) (v : β) :
    mapFind (mapInsert m k v) k = some v := by
  induction m with
  | nil => simp [mapInsert, mapFind]
  | cons h t ih =>
    obtain ⟨k', w⟩ := h
    by_cases hk : k' = k <;> simp [mapInsert, mapFind, hk, ih]

theorem mapFind_insert_ne {β : Type} (m : imap β) (k : Int) (v : β) (j : Int)
    (h : j ≠ k) : mapFind (mapInsert m k v) j = mapFind m j := by
  induction m with
  | nil => simp [mapInsert, mapFind, Ne.symm h]
  | cons hd t ih =>
    obtain ⟨k', w⟩ := hd
    by_cases hk : k' = k
    · subst hk
      simp [mapInsert, mapFind, Ne.symm h]
    · simp [mapInsert, mapFind, hk, ih]

/-- The LoadInst branch of `get_range` on a tracked array with a gep of at
least two indices is exactly `load_elem`, as in the source (line 344). -/
theorem get_range_loadv_arr (id gid b : Int) (nidx : Nat) (idx : V)
    (state : block_state) (a : arr_state) (hr : state.reachable = true)
    (hfind : mapFind state.arr_states b = some a) (hn : 2 ≤ nidx) :
    get_range (V.loadv id (Pt.gep gid b nidx idx)) state =
      arr_state.load_elem a idx state := by
  unfold get_range
  rw [hr]
  simp only [Bool.true_eq_false, if_false, get_base_ptr, hfind, if_pos hn]
  cases idx <;> rfl



theorem clamp_i32_mono {u v : Int} (h : u ≤ v) : clamp_i32 u ≤ clamp_i32 v := by
  unfold clamp_i32 INT_MIN INT_MAX
  split_ifs <;> omega

theorem clamp_i32_min (u v : Int) :
    clamp_i32 (min u v) = min (clamp_i32 u) (clamp_i32 v) := by
  rcases le_total u v with h | h
  · rw [min_eq_left h, min_eq_left (clamp_i32_mono h)]
  · rw [min_eq_right h, min_eq_right (clamp_i32_mono h)]

theorem clamp_i32_max (u v : Int) :
    clamp_i32 (max u v) = max (clamp_i32 u) (clamp_i32 v) := by
  rcases le_total u v with h | h
  · rw [max_eq_right h, max_eq_right (clamp_i32_mono h)]
  · rw [max_eq_left h, max_eq_left (clamp_i32_mono h)]

theorem range.mem_ne_bot {x : Int} {r : range} (h : range.mem x r) : r ≠ r_bot := by
  intro he
  rw [he] at h
  simp only [range.mem, r_bot, INT_MIN, INT_MAX] at h
  omega

/-- Corner bounds for products: over a rectangle, `x * y` is bounded by
the four corner products. -/
theorem mul_le_corners {la ha lb hb x y : Int} (h1 : la ≤ x) (h2 : x ≤ ha)
    (h3 : lb ≤ y) (h4 : y ≤ hb) :
    min (min (la * lb) (la * hb)) (min (ha * lb) (ha * hb)) ≤ x * y ∧
    x * y ≤ max (max (la * lb) (la * hb)) (max (ha * lb) (ha * hb)) := by
  constructor
  · rcases le_total 0 y with hy | hy
    · have hx : la * y ≤ x * y := mul_le_mul_of_nonneg_right h1 hy
      rcases le_total 0 la with hla | hla
      · have h5 : la * lb ≤ la * y := mul_le_mul_of_nonneg_left h3 hla
        omega
      · have h5 : la * hb ≤ la * y := mul_le_mul_of_nonpos_left h4 hla
        omega
    · have hx : ha * y ≤ x * y := mul_le_mul_of_nonpos_right h2 hy
      rcases le_total 0 ha with hha | hha
      · have h5 : ha * lb ≤ ha * y := mul_le_mul_of_nonneg_left h3 hha
        omega
      · have h5 : ha * hb ≤ ha * y := mul_le_mul_of_nonpos_left h4 hha
        omega
  · rcases le_total 0 y with hy | hy
    · have hx : x * y ≤ ha * y := mul_le_mul_of_nonneg_right h2 hy
      rcases le_total 0 ha with hha | hha
      · have h5 : ha * y ≤ ha * hb := mul_le_mul_of_nonneg_left h4 hha
        omega
      · have h5 : ha * y ≤ ha * lb := mul_le_mul_of_nonpos_left h3 hha
        omega
    · have hx : x * y ≤ la * y := mul_le_mul_of_nonpos_right h1 hy
      rcases le_total 0 la with hla | hla
      · have h5 : la * y ≤ la * hb := mul_le_mul_of_nonneg_left h4 hla
        omega
      · have h5 : la * y ≤ la * lb := mul_le_mul_of_nonpos_left h3 hla
        omega

theorem range.add_sound {a b : range} {x y : Int}
    (hx : range.mem x a) (hy : range.mem y b) :
    range.mem (clamp_i32 (x + y)) (range.add a b) := by
  have ha := range.mem_ne_bot hx
  have hb := range.mem_ne_bot hy
  simp only [range.mem] at hx hy
  unfold range.add
  rw [if_neg (by simp [ha, hb])]
  exact ⟨clamp_i32_mono (by omega), clamp_i32_mono (by omega)⟩

theorem range.sub_sound {a b : range} {x y : Int}
    (hx : range.mem x a) (hy : range.mem y b) :
    range.mem (clamp_i32 (x - y)) (range.sub a b) := by
  have ha := range.mem_ne_bot hx
  have hb := range.mem_ne_bot hy
  simp only [range.mem] at hx hy
  unfold range.sub
  rw [if_neg (by simp [ha, hb])]
  exact ⟨clamp_i32_mono (by omega), clamp_i32_mono (by omega)⟩

theorem range.mul_sound {a b : range} {x y : Int}
    (hx : range.mem x a) (hy : range.mem y b) :
    range.mem (clamp_i32 (x * y)) (range.mul a b) := by
  have ha := range.mem_ne_bot hx
  have hb := range.mem_ne_bot hy
  simp only [range.mem] at hx hy
  unfold range.mul
  rw [if_neg (by simp [ha, hb])]
  obtain ⟨hlo, hhi⟩ := mul_le_corners hx.1 hx.2 hy.1 hy.2
  have k1 := clamp_i32_mono hlo
  have k2 := clamp_i32_mono hhi
  rw [clamp_i32_min, clamp_i32_min, clamp_i32_min] at k1
  rw [clamp_i32_max, clamp_i32_max, clamp_i32_max] at k2
  exact ⟨k1, k2⟩

/-- C5: for all non-Bottom intervals `a`, `b` and concrete `x ∈ a`,
`y ∈ b`, the saturated (clamped, never wrapping) results `x+y`, `x−y`,
`x·y` are contained in `range.add a b`, `range.sub a b`, `range.mul a b`
respectively — including at the saturation boundaries, since `x` and `y`
are arbitrary integers of their intervals — and any Bottom operand yields
Bottom. -/
theorem claim_C5_arith_soundness (a b : range) (x y : Int)
    (hx : range.mem x a) (hy : range.mem y b) :
    range.mem (clamp_i32 (x + y)) (range.add a b) ∧
    range.mem (clamp_i32 (x - y)) (range.sub a b) ∧
    range.mem (clamp_i32 (x * y)) (range.mul a b) ∧
    range.add r_bot b = r_bot ∧ range.add a r_bot = r_bot ∧
    range.sub r_bot b = r_bot ∧ range.sub a r_bot = r_bot ∧
    range.mul r_bot b = r_bot ∧ range.mul a r_bot = r_bot := by
  refine ⟨range.add_sound hx hy, range.sub_sound hx hy, range.mul_sound hx hy,
    ?_, ?_, ?_, ?_, ?_, ?_⟩ <;> simp [range.add, range.sub, range.mul]

/-- Witness for C5 at the saturation boundary: `a = [INT_MAX-1, INT_MAX]`,
`b = [1, 2]`, `x = INT_MAX`, `y = 2`. -/
theorem claim_C5_arith_soundness_witness :
    range.mem (clamp_i32 (2147483647 + 2))
      (range.add ⟨2147483646, 2147483647⟩ ⟨1, 2⟩) :=
  (claim_C5_arith_soundness ⟨2147483646, 2147483647⟩ ⟨1, 2⟩ 2147483647 2
    (by decide) (by decide)).1

/-! ## Lattice laws (spec §8.2) -/

theorem range.join_bot_left (b : range) : range.join r_bot b = b := by
  unfold range.join
  simp

theorem range.join_bot_right (a : range) : range.join a r_bot = a := by
  unfold range.join
  by_cases h : a = r_bot <;> simp [h]

theorem range.intersect_bot_left (b : range) : range.intersect r_bot b = r_bot := by
  unfold range.intersect
  simp

theorem range.intersect_bot_right (a : range) : range.intersect a r_bot = r_bot := by
  unfold range.intersect
  simp

theorem range.join_eq {a b : range} (ha : a ≠ r_bot) (hb : b ≠ r_bot) :
    range.join a b = ⟨min a.safelane b.safelane, max a.offlane b.offlane⟩ := by
  unfold range.join
  rw [if_neg ha, if_neg hb]

theorem range.intersect_eq {a b : range} (ha : a ≠ r_bot) (hb : b ≠ r_bot) :
    range.intersect a b =
      if max a.safelane b.safelane > min a.offlane b.offlane then r_bot
      else ⟨max a.safelane b.safelane, min a.offlane b.offlane⟩ := by
  unfold range.intersect
  rw [if_neg (by simp [ha, hb])]

theorem range.mk_ne_bot {lo hi : Int} (h : lo ≤ hi) : (⟨lo, hi⟩ : range) ≠ r_bot := by
  intro he
  simp only [r_bot] at he
  injection he with h1 h2
  simp only [INT_MIN, INT_MAX] at h1 h2
  omega

theorem range.wf_bounds {a : range} (hwa : range.wf a) (ha : a ≠ r_bot) :
    a.safelane ≤ a.offlane := by
  rcases hwa with hwa | hwa
  · exact absurd hwa ha
  · exact hwa.2.1

theorem range.join_ne_bot {a b : range} (hwa : range.wf a) (hwb : range.wf b)
    (ha : a ≠ r_bot) (hb : b ≠ r_bot) : range.join a b ≠ r_bot := by
  have h1 := range.wf_bounds hwa ha
  have h2 := range.wf_bounds hwb hb
  rw [range.join_eq ha hb]
  exact range.mk_ne_bot (by omega)

theorem range.join_comm (a b : range) : range.join a b = range.join b a := by
  by_cases ha : a = r_bot
  · rw [ha, range.join_bot_left, range.join_bot_right]
  by_cases hb : b = r_bot
  · rw [hb, range.join_bot_left, range.join_bot_right]
  rw [range.join_eq ha hb, range.join_eq hb ha, min_comm, max_comm]

theorem range.intersect_comm (a b : range) :
    range.intersect a b = range.intersect b a := by
  by_cases ha : a = r_bot
  · rw [ha, range.intersect_bot_left, range.intersect_bot_right]
  by_cases hb : b = r_bot
  · rw [hb, range.intersect_bot_left, range.intersect_bot_right]
  rw [range.intersect_eq ha hb, range.intersect_eq hb ha, min_comm, max_comm]

theorem range.join_assoc (a b c : range) (hwa : range.wf a) (hwb : range.wf b)
    (hwc : range.wf c) :
    range.join (range.join a b) c = range.join a (range.join b c) := by
  by_cases ha : a = r_bot
  · rw [ha, range.join_bot_left, range.join_bot_left]
  by_cases hb : b = r_bot
  · rw [hb, range.join_bot_left, range.join_bot_right]
  by_cases hc : c = r_bot
  · rw [hc, range.join_bot_right, range.join_bot_right]
  have hab := range.join_ne_bot hwa hwb ha hb
  have hbc := range.join_ne_bot hwb hwc hb hc
  rw [range.join_eq ha hb] at hab
  rw [range.join_eq hb hc] at hbc
  rw [range.join_eq ha hb, range.join_eq hb hc, range.join_eq hab hc,
    range.join_eq ha hbc]
  show (⟨min (min a.safelane b.safelane) c.safelane,
      max (max a.offlane b.offlane) c.offlane⟩ : range) =
    ⟨min a.safelane (min b.safelane c.safelane),
      max a.offlane (max b.offlane c.offlane)⟩
  rw [min_assoc, max_assoc]

theorem range.intersect_assoc (a b c : range) :
    range.intersect (range.intersect a b) c =
      range.intersect a (range.intersect b c) := by
  by_cases ha : a = r_bot
  · simp [ha, range.intersect_bot_left]
  by_cases hb : b = r_bot
  · simp [hb, range.intersect_bot_left, range.intersect_bot_right]
  by_cases hc : c = r_bot
  · simp [hc, range.intersect_bot_right]
  rw [range.intersect_eq ha hb, range.intersect_eq hb hc]
  by_cases hP : max a.safelane b.safelane > min a.offlane b.offlane
  · rw [if_pos hP, range.intersect_bot_left]
    by_cases hQ : max b.safelane c.safelane > min b.offlane c.offlane
    · rw [if_pos hQ, range.intersect_bot_right]
    · rw [if_neg hQ]
      have hmk : (⟨max b.safelane c.safelane, min b.offlane c.offlane⟩ : range) ≠ r_bot :=
        range.mk_ne_bot (by omega)
      rw [range.intersect_eq ha hmk,
        if_pos (show max a.safelane (max b.safelane c.safelane) >
          min a.offlane (min b.offlane c.offlane) from by omega)]
  · rw [if_neg hP]
    have hmkab : (⟨max a.safelane b.safelane, min a.offlane b.offlane⟩ : range) ≠ r_bot :=
      range.mk_ne_bot (by omega)
    by_cases hQ : max b.safelane c.safelane > min b.offlane c.offlane
    · rw [if_pos hQ, range.intersect_bot_right, range.intersect_eq hmkab hc,
        if_pos (show max (max a.safelane b.safelane) c.safelane >
          min (min a.offlane b.offlane) c.offlane from by omega)]
    · rw [if_neg hQ]
      have hmkbc : (⟨max b.safelane c.safelane, min b.offlane c.offlane⟩ : range) ≠ r_bot :=
        range.mk_ne_bot (by omega)
      rw [range.intersect_eq hmkab hc, range.intersect_eq ha hmkbc]
      by_cases hR : max (max a.safelane b.safelane) c.safelane >
          min (min a.offlane b.offlane) c.offlane
      · rw [if_pos (show max (⟨max a.safelane b.safelane,
              min a.offlane b.offlane⟩ : range).safelane c.safelane >
            min (⟨max a.safelane b.safelane,
              min a.offlane b.offlane⟩ : range).offlane c.offlane from hR),
          if_pos (show max a.safelane (⟨max b.safelane c.safelane,
              min b.offlane c.offlane⟩ : range).safelane >
            min a.offlane (⟨max b.safelane c.safelane,
              min b.offlane c.offlane⟩ : range).offlane from by
            show max a.safelane (max b.safelane c.safelane) >
              min a.offlane (min b.offlane c.offlane)
            omega)]
      · rw [if_neg (show ¬ (max (⟨max a.safelane b.safelane,
              min a.offlane b.offlane⟩ : range).safelane c.safelane >
            min (⟨max a.safelane b.safelane,
              min a.offlane b.offlane⟩ : range).offlane c.offlane) from hR),
          if_neg (show ¬ (max a.safelane (⟨max b.safelane c.safelane,
              min b.offlane c.offlane⟩ : range).safelane >
            min a.offlane (⟨max b.safelane c.safelane,
              min b.offlane c.offlane⟩ : range).offlane) from by
            show ¬ (max a.safelane (max b.safelane c.safelane) >
              min a.offlane (min b.offlane c.offlane))
            omega)]
        show (⟨max (max a.safelane b.safelane) c.safelane,
            min (min a.offlane b.offlane) c.offlane⟩ : range) =
          ⟨max a.safelane (max b.safelane c.safelane),
            min a.offlane (min b.offlane c.offlane)⟩
        rw [max_assoc, min_assoc]

theorem range.join_bounds_left (b : range) {a : range} (ha : a ≠ r_bot) :
    (range.join a b).safelane ≤ a.safelane ∧
      a.offlane ≤ (range.join a b).offlane := by
  by_cases hb : b = r_bot
  · rw [hb, range.join_bot_right]
    exact ⟨le_refl _, le_refl _⟩
  · rw [range.join_eq ha hb]
    exact ⟨min_le_left _ _, le_max_left _ _⟩

theorem range.join_bounds_right (a : range) {b : range} (hb : b ≠ r_bot) :
    (range.join a b).safelane ≤ b.safelane ∧
      b.offlane ≤ (range.join a b).offlane := by
  rw [range.join_comm]
  exact range.join_bounds_left a hb

theorem range.join_mono {a b a2 b2 : range} (hwa2 : range.wf a2)
    (hwb2 : range.wf b2) (h1 : range.le a a2) (h2 : range.le b b2) :
    range.le (range.join a b) (range.join a2 b2) := by
  have hj2ne : ∀ x : range, x ≠ r_bot →
      (x = a2 ∨ x = b2) → range.join a2 b2 ≠ r_bot := by
    intro x hx hor
    by_cases ha2 : a2 = r_bot
    · rcases hor with h | h
      · exact absurd (h ▸ ha2) hx
      · rw [ha2, range.join_bot_left]
        exact h ▸ hx
    · by_cases hb2 : b2 = r_bot
      · rw [hb2, range.join_bot_right]
        exact ha2
      · exact range.join_ne_bot hwa2 hwb2 ha2 hb2
  rcases h1 with h1 | ⟨ha2, h1a, h1b⟩
  · rw [h1, range.join_bot_left]
    rcases h2 with h2 | ⟨hb2, h2a, h2b⟩
    · rw [h2]
      exact Or.inl rfl
    · right
      obtain ⟨j1, j2⟩ := range.join_bounds_right a2 hb2
      exact ⟨hj2ne b2 hb2 (Or.inr rfl), le_trans j1 h2a, le_trans h2b j2⟩
  · rcases h2 with h2 | ⟨hb2, h2a, h2b⟩
    · rw [h2, range.join_bot_right]
      right
      obtain ⟨j1, j2⟩ := range.join_bounds_left b2 ha2
      exact ⟨hj2ne a2 ha2 (Or.inl rfl), le_trans j1 h1a, le_trans h1b j2⟩
    · by_cases hab : a = r_bot
      · rw [hab, range.join_bot_left]
        by_cases hbb : b = r_bot
        · rw [hbb]
          exact Or.inl rfl
        · right
          obtain ⟨j1, j2⟩ := range.join_bounds_right a2 hb2
          exact ⟨hj2ne b2 hb2 (Or.inr rfl), le_trans j1 h2a, le_trans h2b j2⟩
      · by_cases hbb : b = r_bot
        · rw [hbb, range.join_bot_right]
          right
          obtain ⟨j1, j2⟩ := range.join_bounds_left b2 ha2
          exact ⟨hj2ne a2 ha2 (Or.inl rfl), le_trans j1 h1a, le_trans h1b j2⟩
        · right
          rw [range.join_eq hab hbb, range.join_eq ha2 hb2]
          refine ⟨?_, ?_, ?_⟩
          · rw [← range.join_eq ha2 hb2]
            exact hj2ne a2 ha2 (Or.inl rfl)
          · show min a2.safelane b2.safelane ≤ min a.safelane b.safelane
            exact min_le_min h1a h2a
          · show max a.offlane b.offlane ≤ max a2.offlane b2.offlane
            exact max_le_max h1b h2b

theorem range.intersect_mono {a b a2 b2 : range} (h1 : range.le a a2)
    (h2 : range.le b b2) :
    range.le (range.intersect a b) (range.intersect a2 b2) := by
  by_cases hab : range.intersect a b = r_bot
  · exact Or.inl hab
  have ha : a ≠ r_bot := by
    intro h
    exact hab (by rw [h, range.intersect_bot_left])
  have hb : b ≠ r_bot := by
    intro h
    exact hab (by rw [h, range.intersect_bot_right])
  rcases h1 with h1 | ⟨ha2, h1a, h1b⟩
  · exact absurd h1 ha
  rcases h2 with h2 | ⟨hb2, h2a, h2b⟩
  · exact absurd h2 hb
  rw [range.intersect_eq ha hb] at hab ⊢
  by_cases hP : max a.safelane b.safelane > min a.offlane b.offlane
  · rw [if_pos hP] at hab
    exact absurd rfl hab
  rw [if_neg hP]
  rw [range.intersect_eq ha2 hb2, if_neg (show ¬ (max a2.safelane b2.safelane >
    min a2.offlane b2.offlane) from by omega)]
  right
  refine ⟨range.mk_ne_bot (by omega), ?_, ?_⟩
  · show max a2.safelane b2.safelane ≤ max a.safelane b.safelane
    exact max_le_max h1a h2a
  · show min a.offlane b.offlane ≤ min a2.offlane b2.offlane
    exact min_le_min h1b h2b

theorem range.intersect_self {a : range} (hwa : range.wf a) :
    range.intersect a a = a := by
  rcases hwa with hwa | hwa
  · rw [hwa, range.intersect_bot_left]
  have ha : a ≠ r_bot := by
    intro h
    rw [h] at hwa
    simp only [r_bot, INT_MIN, INT_MAX] at hwa
    omega
  rw [range.intersect_eq ha ha,
    if_neg (show ¬ (max a.safelane a.safelane > min a.offlane a.offlane) from by
      simp only [max_self, min_self]
      omega)]
  simp

/-- C6: `join` and `intersect` (meet) are commutative, associative, and
monotone in the inclusion order; `meet(a,a) = a`; `join(a, Bottom) = a`;
`meet(a, Bottom) = Bottom`. Associativity, monotonicity and idempotence
are stated for intervals satisfying the §3 well-formedness invariant
(`lo ≤ hi` within the 32-bit bounds, as every interval the program builds
does). -/
theorem claim_C6_lattice_laws (a b c a2 b2 : range) (hwa : range.wf a)
    (hwb : range.wf b) (hwc : range.wf c) (hwa2 : range.wf a2)
    (hwb2 : range.wf b2) :
    range.join a b = range.join b a ∧
    range.intersect a b = range.intersect b a ∧
    range.join (range.join a b) c = range.join a (range.join b c) ∧
    range.intersect (range.intersect a b) c =
      range.intersect a (range.intersect b c) ∧
    (range.le a a2 → range.le b b2 →
      range.le (range.join a b) (range.join a2 b2)) ∧
    (range.le a a2 → range.le b b2 →
      range.le (range.intersect a b) (range.intersect a2 b2)) ∧
    range.intersect a a = a ∧
    range.join a r_bot = a ∧
    range.intersect a r_bot = r_bot :=
  ⟨range.join_comm a b, range.intersect_comm a b,
    range.join_assoc a b c hwa hwb hwc, range.intersect_assoc a b c,
    fun h1 h2 => range.join_mono hwa2 hwb2 h1 h2,
    fun h1 h2 => range.intersect_mono h1 h2,
    range.intersect_self hwa, range.join_bot_right a,
    range.intersect_bot_right a⟩

/-- Witness for C6 at concrete well-formed intervals, including a
monotonicity instance. -/
theorem claim_C6_lattice_laws_witness :
    range.join ⟨0, 3⟩ ⟨-2, 1⟩ = range.join ⟨-2, 1⟩ ⟨0, 3⟩ ∧
    range.le (range.join ⟨0, 3⟩ ⟨-2, 1⟩) (range.join ⟨-1, 4⟩ ⟨-2, 2⟩) := by
  have h := claim_C6_lattice_laws ⟨0, 3⟩ ⟨-2, 1⟩ ⟨5, 7⟩ ⟨-1, 4⟩ ⟨-2, 2⟩
    (by decide) (by decide) (by decide) (by decide) (by decide)
  exact ⟨h.1, h.2.2.2.2.1 (by decide) (by decide)⟩

/-! ## Array store round-trip and the non-constant-write behavior -/

/-- C7: storing interval `v` at the constant index `i` and then loading
index `i` returns exactly `v`; the store leaves `default_r` unchanged,
and loading any other index `j` that is untouched (absent from the slot
map) returns the unchanged `default_r` — a lookup for an index not
present in the mapping returns `default`. -/
theorem claim_C7_store_round_trip (a : arr_state) (s : block_state)
    (v : range) (i j : Int) (hne : j ≠ i)
    (habs : mapFind a.elem_map j = none) :
    arr_state.load_elem (arr_state.store_elem a (V.cint i) v s) (V.cint i) s = v ∧
    (arr_state.store_elem a (V.cint i) v s).default_r = a.default_r ∧
    arr_state.load_elem (arr_state.store_elem a (V.cint i) v s) (V.cint j) s =
      a.default_r := by
  refine ⟨?_, rfl, ?_⟩
  · show (match mapFind (mapInsert a.elem_map i v) i with
      | some r => r
      | none => a.default_r) = v
    rw [mapFind_insert_self]
  · show (match mapFind (mapInsert a.elem_map i v) j with
      | some r => r
      | none => a.default_r) = a.default_r
    rw [mapFind_insert_ne _ _ _ _ hne, habs]

/-- Witness for C7: a store of `[9,9]` at index `1` over a slot map that
tracks index `2`. -/
theorem claim_C7_store_round_trip_witness :
    arr_state.load_elem
      (arr_state.store_elem ⟨[(2, ⟨5, 5⟩)], ⟨0, 0⟩⟩ (V.cint 1) ⟨9, 9⟩
        block_state.init) (V.cint 1) block_state.init = ⟨9, 9⟩ :=
  (claim_C7_store_round_trip ⟨[(2, ⟨5, 5⟩)], ⟨0, 0⟩⟩ block_state.init ⟨9, 9⟩ 1 7
    (by decide) (by decide)).1

/-- C1: evaluation of `store_elem`/`load_elem` at a concrete store
refuting non-constant write soundness. The store with `default_r = [0,0]`
tracks slot `2 ↦ [5,5]`; index value `7` is tracked with the non-singleton
interval `[0,1]`, so storing `[1,1]` through it takes the non-exact path.
The path joins only the written interval into `default_r` and clears the
slot map without folding the slots in: a load of index `2` returns `[5,5]`
before the write but `[0,1]` after it, and `5` — a value the pre-write
store admits at index 2 — is not admitted by the post-write result, so the
post-write load is not a superset of the pre-write load. -/
theorem claim_C1_nonconstant_write_eval :
    arr_state.load_elem ⟨[(2, ⟨5, 5⟩)], ⟨0, 0⟩⟩ (V.cint 2)
      ⟨[(7, ⟨0, 1⟩)], [], true⟩ = ⟨5, 5⟩ ∧
    arr_state.store_elem ⟨[(2, ⟨5, 5⟩)], ⟨0, 0⟩⟩ (V.other 7) ⟨1, 1⟩
      ⟨[(7, ⟨0, 1⟩)], [], true⟩ = ⟨[], ⟨0, 1⟩⟩ ∧
    arr_state.load_elem
      (arr_state.store_elem ⟨[(2, ⟨5, 5⟩)], ⟨0, 0⟩⟩ (V.other 7) ⟨1, 1⟩
        ⟨[(7, ⟨0, 1⟩)], [], true⟩) (V.cint 2)
      ⟨[(7, ⟨0, 1⟩)], [], true⟩ = ⟨0, 1⟩ ∧
    range.mem 5 (arr_state.load_elem ⟨[(2, ⟨5, 5⟩)], ⟨0, 0⟩⟩ (V.cint 2)
      ⟨[(7, ⟨0, 1⟩)], [], true⟩) ∧
    ¬ range.mem 5 (arr_state.load_elem
      (arr_state.store_elem ⟨[(2, ⟨5, 5⟩)], ⟨0, 0⟩⟩ (V.other 7) ⟨1, 1⟩
        ⟨[(7, ⟨0, 1⟩)], [], true⟩) (V.cint 2)
      ⟨[(7, ⟨0, 1⟩)], [], true⟩) := by
  decide

/-- C2: evaluation of `block_state::operator!=` at two reachable states
that have identical scalar maps and, for the single tracked array object
`0`, the same `default_r` and the same number of slots but *different*
slot keys and values (`0 ↦ [1,1]` versus `5 ↦ [7,9]`). The operator
compares array stores only by default and slot-map size, so it reports
the states equal (`bne = false`) although they are not — the check is
approximate, not exact. -/
theorem claim_C2_state_equality_eval :
    block_state.bne ⟨[], [(0, ⟨[(0, ⟨1, 1⟩)], ⟨0, 0⟩⟩)], true⟩
      ⟨[], [(0, ⟨[(5, ⟨7, 9⟩)], ⟨0, 0⟩⟩)], true⟩ = false ∧
    (⟨[], [(0, ⟨[(0, ⟨1, 1⟩)], ⟨0, 0⟩⟩)], true⟩ : block_state) ≠
      ⟨[], [(0, ⟨[(5, ⟨7, 9⟩)], ⟨0, 0⟩⟩)], true⟩ := by
  decide

/-! ## Call clobbering (C3) -/

theorem mapFind_insert {β : Type} (m : imap β) (k : Int) (v : β) (j : Int) :
    mapFind (mapInsert m k v) j = if j = k then some v else mapFind m j := by
  by_cases h : j = k
  · rw [if_pos h, h, mapFind_insert_self]
  · rw [if_neg h, mapFind_insert_ne _ _ _ _ h]

/-- A clobber step never changes which array objects are tracked. -/
theorem clobber_arg_contains (s : block_state) (a : CArg) (b : Int) :
    mapContains (clobber_arg s a).arr_states b = mapContains s.arr_states b := by
  cases a with
  | valArg v => rfl
  | ptrArg p =>
    simp only [clobber_arg]
    by_cases h : mapContains s.arr_states (get_base_ptr p)
    · rw [if_pos h]
      unfold mapContains
      rw [mapFind_insert]
      by_cases hb : b = get_base_ptr p
      · rw [if_pos hb, hb]
        unfold mapContains at h
        simp only [Option.isSome]
        cases hfind : mapFind s.arr_states (get_base_ptr p) with
        | none => rw [hfind] at h; simp [Option.isSome] at h
        | some x => rfl
      · rw [if_neg hb]
    · rw [if_neg h]

/-- A clobber step preserves an already-reset array entry. -/
theorem clobber_arg_keeps_arr (s : block_state) (a : CArg) (b : Int)
    (h : mapFind s.arr_states b = some arr_state.unconstrained) :
    mapFind (clobber_arg s a).arr_states b = some arr_state.unconstrained := by
  cases a with
  | valArg v => exact h
  | ptrArg p =>
    simp only [clobber_arg]
    by_cases hc : mapContains s.arr_states (get_base_ptr p)
    · rw [if_pos hc]
      show mapFind (mapInsert s.arr_states (get_base_ptr p) arr_state.unconstrained) b = _
      rw [mapFind_insert]
      by_cases hb : b = get_base_ptr p
      · rw [if_pos hb]
      · rw [if_neg hb]
        exact h
    · rw [if_neg hc]
      exact h

/-- A clobber step preserves a scalar already bound to Top. -/
theorem clobber_arg_keeps_val (s : block_state) (a : CArg) (b : Int)
    (h : mapFind s.val_ranges b = some r_top) :
    mapFind (clobber_arg s a).val_ranges b = some r_top := by
  cases a with
  | valArg v => exact h
  | ptrArg p =>
    simp only [clobber_arg]
    by_cases hc : mapContains s.arr_states (get_base_ptr p)
    · rw [if_pos hc]
      exact h
    · rw [if_neg hc]
      show mapFind (mapInsert s.val_ranges (get_base_ptr p) r_top) b = _
      rw [mapFind_insert]
      by_cases hb : b = get_base_ptr p
      · rw [if_pos hb]
      · rw [if_neg hb]
        exact h

theorem clobber_fold_keeps_arr (args : List CArg) (s : block_state) (b : Int)
    (h : mapFind s.arr_states b = some arr_state.unconstrained) :
    mapFind (args.foldl clobber_arg s).arr_states b =
      some arr_state.unconstrained := by
  induction args generalizing s with
  | nil => exact h
  | cons a t ih => exact ih (clobber_arg s a) (clobber_arg_keeps_arr s a b h)

theorem clobber_fold_keeps_val (args : List CArg) (s : block_state) (b : Int)
    (h : mapFind s.val_ranges b = some r_top) :
    mapFind (args.foldl clobber_arg s).val_ranges b = some r_top := by
  induction args generalizing s with
  | nil => exact h
  | cons a t ih => exact ih (clobber_arg s a) (clobber_arg_keeps_val s a b h)

/-- Every pointer argument of the processed list ends clobbered: the base
with a tracked array store holds the unconstrained summary, any other
base's scalar holds Top. -/
theorem clobber_fold_spec (args : List CArg) (s : block_state) (q : Pt)
    (hq : CArg.ptrArg q ∈ args) :
    (mapContains s.arr_states (get_base_ptr q) = true →
      mapFind (args.foldl clobber_arg s).arr_states (get_base_ptr q) =
        some arr_state.unconstrained) ∧
    (mapContains s.arr_states (get_base_ptr q) = false →
      mapFind (args.foldl clobber_arg s).val_ranges (get_base_ptr q) =
        some r_top) := by
  induction args generalizing s with
  | nil => cases hq
  | cons a t ih =>
    rcases List.mem_cons.mp hq with heq | hmem
    · subst heq
      constructor
      · intro hc
        refine clobber_fold_keeps_arr t _ _ ?_
        show mapFind (clobber_arg s (CArg.ptrArg q)).arr_states (get_base_ptr q) = _
        simp only [clobber_arg]
        rw [if_pos hc]
        show mapFind (mapInsert s.arr_states (get_base_ptr q)
          arr_state.unconstrained) (get_base_ptr q) = _
        rw [mapFind_insert_self]
      · intro hc
        refine clobber_fold_keeps_val t _ _ ?_
        show mapFind (clobber_arg s (CArg.ptrArg q)).val_ranges (get_base_ptr q) = _
        simp only [clobber_arg]
        rw [if_neg (by rw [hc]; exact Bool.false_ne_true)]
        show mapFind (mapInsert s.val_ranges (get_base_ptr q) r_top)
          (get_base_ptr q) = _
        rw [mapFind_insert_self]
    · have hco := clobber_arg_contains s a (get_base_ptr q)
      constructor
      · intro hc
        exact (ih (clobber_arg s a) hmem).1 (by rw [hco]; exact hc)
      · intro hc
        exact (ih (clobber_arg s a) hmem).2 (by rw [hco]; exact hc)

/-- C3 counterexample: a call whose callee is not statically known
(`getCalledFunction()` returns null, `known = false`) leaves its pointer
argument's tracked array store — object `0`, default `[0,0]`, slot
`1 ↦ [2,2]` — completely untouched instead of resetting it to the
unconstrained summary, so the claim fails for calls to unknown callees. -/
theorem claim_C3_unknown_call_cex :
    (transfer_inst (inst.calli 9 false [CArg.ptrArg (Pt.direct 0)])
        ⟨[], [(0, ⟨[(1, ⟨2, 2⟩)], ⟨0, 0⟩⟩)], true⟩ []).arr_states =
      [(0, ⟨[(1, ⟨2, 2⟩)], ⟨0, 0⟩⟩)] ∧
    mapFind (transfer_inst (inst.calli 9 false [CArg.ptrArg (Pt.direct 0)])
        ⟨[], [(0, ⟨[(1, ⟨2, 2⟩)], ⟨0, 0⟩⟩)], true⟩ []).arr_states 0 ≠
      some arr_state.unconstrained := by
  decide

/-- C3 (amended): for a call whose callee is statically known
(`getCalledFunction()` non-null), every pointer-typed argument is
clobbered — a tracked array store for the argument's base is reset to the
unconstrained summary (default Top, no slots), an untracked base's scalar
is bound to Top — and the call's result is bound to Top. For a call with
an unknown (indirect) callee no argument is clobbered: the state is
unchanged except that the result is bound to Top. -/
theorem claim_C3_call_clobber (id : Int) (known : Bool) (args : List CArg)
    (s : block_state) (outs : imap block_state) (q : Pt)
    (hq : CArg.ptrArg q ∈ args) :
    mapFind (transfer_inst (inst.calli id known args) s outs).val_ranges id =
      some r_top ∧
    (known = true →
      (mapContains s.arr_states (get_base_ptr q) = true →
        mapFind (transfer_inst (inst.calli id known args) s outs).arr_states
          (get_base_ptr q) = some arr_state.unconstrained) ∧
      (mapContains s.arr_states (get_base_ptr q) = false →
        mapFind (transfer_inst (inst.calli id known args) s outs).val_ranges
          (get_base_ptr q) = some r_top)) ∧
    (known = false →
      transfer_inst (inst.calli id known args) s outs =
        { s with val_ranges := mapInsert s.val_ranges id r_top }) := by
  refine ⟨?_, ?_, ?_⟩
  · show mapFind (mapInsert (if known then args.foldl clobber_arg s
      else s).val_ranges id r_top) id = some r_top
    rw [mapFind_insert_self]
  · intro hk
    subst hk
    have hs := clobber_fold_spec args s q hq
    constructor
    · intro hc
      show mapFind (args.foldl clobber_arg s).arr_states (get_base_ptr q) =
        some arr_state.unconstrained
      exact hs.1 hc
    · intro hc
      show mapFind (mapInsert (args.foldl clobber_arg s).val_ranges id r_top)
        (get_base_ptr q) = some r_top
      rw [mapFind_insert]
      by_cases hb : get_base_ptr q = id
      · rw [if_pos hb]
      · rw [if_neg hb]
        exact hs.2 hc
  · intro hk
    subst hk
    rfl

/-- Witness for C3 at a known call with one pointer argument over a
tracked array object. -/
theorem claim_C3_call_clobber_witness :
    mapFind (transfer_inst (inst.calli 9 true [CArg.ptrArg (Pt.direct 0)])
        ⟨[], [(0, ⟨[(1, ⟨2, 2⟩)], ⟨0, 0⟩⟩)], true⟩ []).arr_states 0 =
      some arr_state.unconstrained :=
  ((claim_C3_call_clobber 9 true [CArg.ptrArg (Pt.direct 0)]
      ⟨[], [(0, ⟨[(1, ⟨2, 2⟩)], ⟨0, 0⟩⟩)], true⟩ [] (Pt.direct 0)
      (List.Mem.head _)).2.1 rfl).1 (by decide)

/-! ## Guard decision (C4) -/

theorem to_i32_small {n : Nat} (h : n < 2147483648) : to_i32 n = (n : Int) := by
  show (if (n : Int) % 4294967296 < 2147483648 then (n : Int) % 4294967296
    else (n : Int) % 4294967296 - 4294967296) = (n : Int)
  rw [if_pos (by omega)]
  omega

/-- C4 counterexample: for a fixed-size array of `2^31` elements and the
solved index interval `[0,0]` — non-Bottom, non-Top, and contained in
`[0, size-1]` — the claim says no guard is inserted, but `needs_check`
compares against the size truncated to a signed 32-bit value
(`(int)size = -2^31`) and reports that a guard is required. -/
theorem claim_C4_truncated_size_cex :
    needs_check ⟨0, 0⟩ 2147483648 = true ∧
    (⟨0, 0⟩ : range) ≠ r_bot ∧
    (⟨0, 0⟩ : range) ≠ r_top ∧
    (0 : Int) ≤ 0 ∧
    (0 : Int) ≤ (2147483648 : Int) - 1 := by
  decide

/-- C4 (amended): a guard is required unless the solved index interval is
non-Bottom, not Top, and lies within `[0, (int32)size - 1]`, where the
array size is truncated to a signed 32-bit value by the `(int)size` cast;
for sizes `0 < size < 2^31` — every size the cast represents faithfully —
this is exactly containment in `[0, size-1]`. A Bottom interval (dead
access) is never guarded, for any size. -/
theorem claim_C4_guard_decision (r : range) (size : Nat) (hpos : 0 < size)
    (hsmall : size < 2147483648) :
    (needs_check r size = false ↔
      r = r_bot ∨ (r ≠ r_top ∧ 0 ≤ r.safelane ∧ r.offlane ≤ (size : Int) - 1)) ∧
    (∀ sz : Nat, needs_check r sz = false ↔
      r = r_bot ∨
        (sz ≠ 0 ∧ r ≠ r_top ∧ 0 ≤ r.safelane ∧ r.offlane < to_i32 sz)) ∧
    (∀ sz : Nat, needs_check r_bot sz = false) := by
  have hgen : ∀ sz : Nat, needs_check r sz = false ↔
      r = r_bot ∨
        (sz ≠ 0 ∧ r ≠ r_top ∧ 0 ≤ r.safelane ∧ r.offlane < to_i32 sz) := by
    intro sz
    unfold needs_check
    split_ifs with h1 h2 h3
    · simp [h1]
    · simp [h1, h2]
    · simp [h1, h2, h3]
    · simp only [Bool.true_eq_false, false_iff]
      rintro (hc | ⟨hsz, hrest⟩)
      · exact h1 hc
      · exact h3 hrest
  refine ⟨?_, hgen, ?_⟩
  · rw [hgen size]
    have ht := to_i32_small hsmall
    constructor
    · rintro (h | ⟨hz, hnt, hlo, hhi⟩)
      · exact Or.inl h
      · rw [ht] at hhi
        exact Or.inr ⟨hnt, hlo, by omega⟩
    · rintro (h | ⟨hnt, hlo, hhi⟩)
      · exact Or.inl h
      · refine Or.inr ⟨by omega, hnt, hlo, ?_⟩
        rw [ht]
        omega
  · intro sz
    unfold needs_check
    rw [if_pos rfl]

/-- Witness for C4: a `[0,3]` index into a 4-element array needs no
guard; a Top index into the same array does. -/
theorem claim_C4_guard_decision_witness :
    needs_check ⟨0, 3⟩ 4 = false ∧ needs_check r_bot 4 = false := by
  have h := claim_C4_guard_decision ⟨0, 3⟩ 4 (by decide) (by decide)
  exact ⟨h.1.mpr (Or.inr (by decide)), h.2.2 4⟩

/-! ## Branch refinement (C8) -/

/-- C8: with `x` tracked as `[0,10]` (value key `1`) and the branch
condition `x < 5`, `refine_br` maps `x` to `[0,4]` on the taken edge and
to `[5,10]` on the not-taken edge; in general the filter for `<` with
constant `k` (not `INT_MIN`) is `[INT_MIN, k-1]`, and the not-taken edge
inverts the predicate before the meet with the variable's interval. -/
theorem claim_C8_branch_refinement (k : Int) (hk : k ≠ INT_MIN) :
    mapFind (refine_br (some ⟨.slt, .otherOp 1, .constOp 5⟩) 100 200 100
      ⟨[(1, ⟨0, 10⟩)], [], true⟩).val_ranges 1 = some ⟨0, 4⟩ ∧
    mapFind (refine_br (some ⟨.slt, .otherOp 1, .constOp 5⟩) 100 200 200
      ⟨[(1, ⟨0, 10⟩)], [], true⟩).val_ranges 1 = some ⟨5, 10⟩ ∧
    (∀ vr : range, br_filter .slt k vr = ⟨INT_MIN, k - 1⟩) ∧
    (∀ (vr : range) (p : CPred), refine_core vr p k false =
      range.intersect vr (br_filter (inverse_pred p) k vr)) := by
  refine ⟨by decide, by decide, ?_, fun vr p => rfl⟩
  intro vr
  unfold br_filter
  rw [if_neg hk]

/-- Witness for C8 at `k = 5`. -/
theorem claim_C8_branch_refinement_witness :
    br_filter .slt 5 ⟨0, 10⟩ = ⟨INT_MIN, 4⟩ :=
  (claim_C8_branch_refinement 5 (by decide)).2.2.1 ⟨0, 10⟩

/-! ## The pass name gate (C10) -/

/-- C10: for every function whose name is not exactly `"test"`, the pass
entry point returns immediately reporting that all analyses are
preserved: no analysis result, no diagnostics, and no CFG mutation (no
guard is inserted, `modified = false`). -/
theorem claim_C10_name_gate (f : func) (h : f.name ≠ "test") :
    run_pass f =
      { preservedAll := true, modified := false, diags := [], guards := [] } := by
  unfold run_pass
  rw [if_neg h]

/-- Witness for C10: a function named `"main"` is returned untouched. -/
theorem claim_C10_name_gate_witness :
    run_pass { name := "main", blocks := [], params := [], back_edges := [] } =
      { preservedAll := true, modified := false, diags := [], guards := [] } :=
  claim_C10_name_gate
    { name := "main", blocks := [], params := [], back_edges := [] }
    (by decide)

theorem osc_iter_succ (n : Nat) :
    osc_iter (n + 1) = solve_step osc_fn (osc_iter n) :=
  Function.iterate_succ_apply' (solve_step osc_fn) n (init_config osc_fn)

set_option maxHeartbeats 1000000 in
theorem osc_step0 : solve_step osc_fn osc_c0 = osc_c1 := by
  decide
set_option maxHeartbeats 1000000 in
theorem osc_step1 : solve_step osc_fn osc_c1 = osc_c2 := by
  decide
set_option maxHeartbeats 1000000 in
theorem osc_step2 : solve_step osc_fn osc_c2 = osc_c3 := by
  decide
set_option maxHeartbeats 1000000 in
theorem osc_step3 : solve_step osc_fn osc_c3 = osc_c4 := by
  decide
set_option maxHeartbeats 1000000 in
theorem osc_step4 : solve_step osc_fn osc_c4 = osc_c5 := by
  decide
set_option maxHeartbeats 1000000 in
theorem osc_step5 : solve_step osc_fn osc_c5 = osc_c6 := by
  decide
set_option maxHeartbeats 1000000 in
theorem osc_step6 : solve_step osc_fn osc_c6 = osc_c7 := by
  decide
set_option maxHeartbeats 1000000 in
theorem osc_step7 : solve_step osc_fn osc_c7 = osc_c8 := by
  decide
set_option maxHeartbeats 1000000 in
theorem osc_step8 : solve_step osc_fn osc_c8 = osc_c9 := by
  decide
set_option maxHeartbeats 1000000 in
theorem osc_step9 : solve_step osc_fn osc_c9 = osc_c10 := by
  decide
set_option maxHeartbeats 1000000 in
theorem osc_step10 : solve_step osc_fn osc_c10 = osc_c11 := by
  decide
set_option maxHeartbeats 1000000 in
theorem osc_step11 : solve_step osc_fn osc_c11 = osc_c6 := by
  decide

theorem osc_at0 : osc_iter 0 = osc_c0 := rfl
theorem osc_at1 : osc_iter 1 = osc_c1 := by
  rw [show (1 : Nat) = 0 + 1 from rfl, osc_iter_succ, osc_at0, osc_step0]
theorem osc_at2 : osc_iter 2 = osc_c2 := by
  rw [show (2 : Nat) = 1 + 1 from rfl, osc_iter_succ, osc_at1, osc_step1]
theorem osc_at3 : osc_iter 3 = osc_c3 := by
  rw [show (3 : Nat) = 2 + 1 from rfl, osc_iter_succ, osc_at2, osc_step2]
theorem osc_at4 : osc_iter 4 = osc_c4 := by
  rw [show (4 : Nat) = 3 + 1 from rfl, osc_iter_succ, osc_at3, osc_step3]
theorem osc_at5 : osc_iter 5 = osc_c5 := by
  rw [show (5 : Nat) = 4 + 1 from rfl, osc_iter_succ, osc_at4, osc_step4]
theorem osc_at6 : osc_iter 6 = osc_c6 := by
  rw [show (6 : Nat) = 5 + 1 from rfl, osc_iter_succ, osc_at5, osc_step5]
theorem osc_at7 : osc_iter 7 = osc_c7 := by
  rw [show (7 : Nat) = 6 + 1 from rfl, osc_iter_succ, osc_at6, osc_step6]
theorem osc_at8 : osc_iter 8 = osc_c8 := by
  rw [show (8 : Nat) = 7 + 1 from rfl, osc_iter_succ, osc_at7, osc_step7]
theorem osc_at9 : osc_iter 9 = osc_c9 := by
  rw [show (9 : Nat) = 8 + 1 from rfl, osc_iter_succ, osc_at8, osc_step8]
theorem osc_at10 : osc_iter 10 = osc_c10 := by
  rw [show (10 : Nat) = 9 + 1 from rfl, osc_iter_succ, osc_at9, osc_step9]
theorem osc_at11 : osc_iter 11 = osc_c11 := by
  rw [show (11 : Nat) = 10 + 1 from rfl, osc_iter_succ, osc_at10, osc_step10]
theorem osc_at12 : osc_iter 12 = osc_c6 := by
  rw [show (12 : Nat) = 11 + 1 from rfl, osc_iter_succ, osc_at11, osc_step11]

/-- After six pops the solver configuration repeats with period six. -/
theorem osc_cycle : osc_iter 12 = osc_iter 6 := by
  rw [osc_at12, osc_at6]

theorem osc_period (m : Nat) : osc_iter (12 + m) = osc_iter (6 + m) := by
  induction m with
  | zero => exact osc_cycle
  | succ k ih =>
    have h1 : 12 + (k + 1) = (12 + k) + 1 := by omega
    have h2 : 6 + (k + 1) = (6 + k) + 1 := by omega
    rw [h1, h2, osc_iter_succ, osc_iter_succ, ih]

theorem osc_small : ∀ n : Nat, n < 12 → ((osc_iter n).wk.isEmpty) = false := by
  intro n h
  interval_cases n
  · rw [osc_at0]; decide
  · rw [osc_at1]; decide
  · rw [osc_at2]; decide
  · rw [osc_at3]; decide
  · rw [osc_at4]; decide
  · rw [osc_at5]; decide
  · rw [osc_at6]; decide
  · rw [osc_at7]; decide
  · rw [osc_at8]; decide
  · rw [osc_at9]; decide
  · rw [osc_at10]; decide
  · rw [osc_at11]; decide

/-- C9: the worklist fixpoint loop does not terminate on every finite
CFG. On the four-block function `osc_fn` (a loop whose body stores
`20 - x` back into `x` under the guard `x < 100`), the queue of the
embedded driver is non-empty after every number of pops: the widened
back-edge fact for `x` is re-narrowed on the opposite side each
iteration (the snap applies only to the strictly expanded side while the
other side takes the incoming narrowed bound), the out-states of the
loop head and body change on every visit, and the loop runs forever
instead of draining. -/
theorem claim_C9_fixpoint_divergence :
    ∀ n : Nat, ((osc_iter n).wk.isEmpty) = false := by
  intro n
  induction n using Nat.strong_induction_on with
  | _ n ih =>
    by_cases h : n < 12
    · exact osc_small n h
    · have h1 : n = 12 + (n - 12) := by omega
      have h2 : 6 + (n - 12) = n - 6 := by omega
      rw [h1, osc_period, h2]
      exact ih (n - 6) (by omega)
